import Mathlib

/-!
Verification of the SSAWG trending scraper core
(`twiki_wg/ssawg_trending_scraper.py`).

The Python source is shallowly embedded below:

* network responses are passed in explicitly (a probe function for the
  quarterly resolver, a status/body pair for single fetches);
* `CxoTime` instants are modelled as exact rational "seconds" values
  (`ℚ`), since only differences, halving and ordering are used;
* calendar dates are modelled by a year/month/day record with Gregorian
  month lengths, and the `CxoTime - 27 * u.day` step of the monthly
  resolver by explicit calendar subtraction of 27 days;
* Python exceptions are modelled with `Except String`, Python dicts by
  association lists with in-place update;
* BeautifulSoup tags are modelled by records holding the attributes the
  scraper reads (`href` for anchors, `src` for images).

All definitions come first, followed by the theorems.
-/

set_option autoImplicit false

namespace WG

/-- Base URL of the trending site (module constant `URL_ASPECT`). -/
def URL_ASPECT : String := "https://cxc.cfa.harvard.edu/mta/ASPECT"

/-- Response of one probe GET against a candidate quarter URL, as used by
`ReportsPage.get_url`: the HTTP status code together with the `TSTART` /
`TSTOP` values (in seconds) parsed from table 2 of the page body.  The
time fields are only meaningful when the scraper reads them, i.e. on a
status-200 response. -/
structure ProbeResponse where
  status : Nat
  tstart : ℚ
  tstop : ℚ

/-- Candidate quarter URL `f"{URL_ASPECT}/{self.page}/{year}/Q{quarter}/"`. -/
def quarterUrl (page : String) (year quarter : Nat) : String :=
  URL_ASPECT ++ "/" ++ page ++ "/" ++ toString year ++ "/Q" ++ toString quarter ++ "/"

/-- Body of the status-200 branch of `ReportsPage.get_url` for candidate
quarter `q`: compute the quarter midpoint from the probed `TSTART`/`TSTOP`
and apply the 50%-through-the-quarter rule. -/
def quarterPick (page : String) (year : Nat) (nowSecs : ℚ)
    (probe : Nat → ProbeResponse) (q : Nat) : String × String :=
  let resp := probe q
  let halfway : ℚ := resp.tstart + (resp.tstop - resp.tstart) / 2
  if halfway < nowSecs then
    (quarterUrl page year q, quarterUrl page year q)
  else if q = 1 then
    (quarterUrl page (year - 1) 4, quarterUrl page year q)
  else
    (quarterUrl page year (q - 1), quarterUrl page year q)

/-- The probing loop of `ReportsPage.get_url`, over an explicit list of
candidate quarters: skip candidates whose probe status is not 200, apply
`quarterPick` to the first status-200 candidate, and raise
`RuntimeError(f"failed to find URL for {self.page}")` when the list is
exhausted. -/
def reportsGetUrlAux (page : String) (year : Nat) (nowSecs : ℚ)
    (probe : Nat → ProbeResponse) : List Nat → Except String (String × String)
  | [] => Except.error ("failed to find URL for " ++ page)
  | q :: rest =>
    if (probe q).status = 200 then
      Except.ok (quarterPick page year nowSecs probe q)
    else
      reportsGetUrlAux page year nowSecs probe rest

/-- `ReportsPage.get_url`: the source iterates `for quarter in
range(4, 0, -1)`, i.e. candidates Q4, Q3, Q2, Q1 of the current year. -/
def reportsGetUrl (page : String) (year : Nat) (nowSecs : ℚ)
    (probe : Nat → ProbeResponse) : Except String (String × String) :=
  reportsGetUrlAux page year nowSecs probe [4, 3, 2, 1]

/-- Modelled from the spec (for the refinement comparison in claim C2;
this enumeration order appears nowhere in the source): "candidate
quarters are enumerated from the current calendar quarter backward".
`curQuarter` is the calendar quarter of "now"; candidates are
`curQuarter, curQuarter - 1, ..., 1` of the current year. -/
def reportsGetUrlSpecOrder (page : String) (year curQuarter : Nat) (nowSecs : ℚ)
    (probe : Nat → ProbeResponse) : Except String (String × String) :=
  reportsGetUrlAux page year nowSecs probe (List.range' 1 curQuarter).reverse

/-- Calendar date of a `CxoTime` datetime (year, month, day-of-month). -/
structure SDate where
  year : Nat
  month : Nat
  day : Nat

/-- Gregorian leap-year test. -/
def isLeap (y : Nat) : Bool :=
  (y % 4 == 0 && y % 100 != 0) || y % 400 == 0

/-- Number of days of month `m` of year `y`. -/
def monthLen (y m : Nat) : Nat :=
  if m = 2 then (if isLeap y then 29 else 28)
  else if m = 4 ∨ m = 6 ∨ m = 9 ∨ m = 11 then 30
  else 31

/-- The `CxoTime.now() - 27 * u.day` step of `PerigeePage.get_url`, as
calendar arithmetic on the datetime's date (the time of day carried by
the instant does not affect which calendar day the subtraction lands on,
so only the date is modelled): subtracting 27 days either stays in the
same month, or steps into the previous calendar month — December of the
prior year when the month is January — since every month has at least 28
days. -/
def subDays27 (d : SDate) : SDate :=
  if 27 < d.day then ⟨d.year, d.month, d.day - 27⟩
  else if d.month = 1 then ⟨d.year - 1, 12, d.day + 31 - 27⟩
  else ⟨d.year, d.month - 1, d.day + monthLen d.year (d.month - 1) - 27⟩

/-- Zero-padded two-digit number, Python format `{n:02}`. -/
def pad2 (n : Nat) : String :=
  if n < 10 then "0" ++ toString n else toString n

/-- Monthly URL `f"{URL_ASPECT}/{self.page}/SUMMARY_DATA/{year}-M{month:02}/"`. -/
def monthUrl (page : String) (year month : Nat) : String :=
  URL_ASPECT ++ "/" ++ page ++ "/SUMMARY_DATA/" ++ toString year ++ "-M" ++
    pad2 month ++ "/"

/-- `PerigeePage.get_url`: past day 15 of the month, the current month's
summary URL, else the month 27 days back; the current-period component
is the empty string in both branches. -/
def perigeeGetUrl (page : String) (now : SDate) : String × String :=
  if now.day > 15 then
    (monthUrl page now.year now.month, "")
  else
    let lastMonth := subDays27 now
    (monthUrl page lastMonth.year lastMonth.month, "")

/-- `BasePage.get_page_request`, given the HTTP response for the already
resolved URL: raise `RuntimeError(f"Investigate issues with {self.url}")`
unless the status code is exactly 200, else return the response. -/
def getPageRequest (url : String) (status : Nat) (body : String) :
    Except String String :=
  if status ≠ 200 then Except.error ("Investigate issues with " ++ url)
  else Except.ok body

/-- An `<img>` element, holding the attribute the scraper reads. -/
structure ImgTag where
  src : String

/-- The embeddable absolute-URL fragment built by `get_images` for one
image: an `<img>` tag whose `src` is the base URL prefixed to the
original relative source, with a width cap. -/
def imgFragment (url src : String) : String :=
  "<img src = \"" ++ url ++ src ++ "\" style=\"max-width:800px\">"

/-- Python `str.endswith`, as a character-sequence suffix test
(equivalent to the core `String.endsWith`, but written so it evaluates
inside the kernel). -/
def endsWithStr (s pat : String) : Bool :=
  pat.toList.isSuffixOf s.toList

/-- The suffix test of `get_images`.  Note the source tests `.png` with
the leading dot but `gif` without it:
`img["src"].endswith(".png") or img["src"].endswith("gif")`. -/
def imgWanted (src : String) : Bool :=
  endsWithStr src ".png" || endsWithStr src "gif"

/-- Python dict update `images[k] = v` on an association list: replace
the value at the first occurrence of the key, else append the pair. -/
def dictInsert : List (String × String) → String → String → List (String × String)
  | [], k, v => [(k, v)]
  | p :: rest, k, v =>
    if p.1 = k then (k, v) :: rest else p :: dictInsert rest k v

/-- `get_images`: iterate the `<img>` elements in document order,
keeping those whose `src` passes `imgWanted`, keyed by the original
(pre-rewrite) `src` with the absolute-URL fragment as value. -/
def getImages (imgs : List ImgTag) (url : String) : List (String × String) :=
  imgs.foldl
    (fun d img =>
      if imgWanted img.src then dictInsert d img.src (imgFragment url img.src)
      else d)
    []

/-- An `<a>` element; `href` is `none` when the attribute is absent. -/
structure ATag where
  href : Option String

/-- The anchor-rewriting loop of `BasePage.parse_page`:
`local_link["href"] = self.url + local_link["href"]` for every anchor in
the document; reading a missing `href` attribute raises `KeyError`. -/
def rewriteAnchorList (url : String) : List ATag → Except String (List ATag)
  | [] => Except.ok []
  | a :: rest =>
    match a.href with
    | none => Except.error "KeyError: href"
    | some h =>
      match rewriteAnchorList url rest with
      | Except.ok out => Except.ok (⟨some (url ++ h)⟩ :: out)
      | Except.error e => Except.error e

/-- The `if self.page != "celmon"` guard around the rewriting loop in
`BasePage.parse_page`: the celmon page's anchors are left unmodified. -/
def rewriteAnchors (page url : String) (anchors : List ATag) :
    Except String (List ATag) :=
  if page = "celmon" then Except.ok anchors
  else rewriteAnchorList url anchors

/-- The tags of one fetched document that the modelled part of
`parse_page` reads. -/
structure PageDoc where
  anchors : List ATag
  imgs : List ImgTag

/-- `BasePage.parse_page` restricted to the steps the claims exercise:
rewrite all anchor hrefs (except for celmon) and collect the image
mapping; any raised error propagates to the caller. -/
def parsePage (page url : String) (doc : PageDoc) :
    Except String (List ATag × List (String × String)) :=
  match rewriteAnchors page url doc.anchors with
  | Except.error e => Except.error e
  | Except.ok as => Except.ok (as, getImages doc.imgs url)

/-- Outcome of one page's harvest attempt (the spec's `HarvestOutcome`):
either the page's selected fragments, or a failure marker carrying the
page key and the rendered error detail. -/
inductive Outcome where
  | success : List String → Outcome
  | failure : String → String → Outcome
deriving DecidableEq

/-- Python `html.escape` (with quote escaping) of one character. -/
def escapeChar (c : Char) : String :=
  if c = '&' then "&amp;"
  else if c = '<' then "&lt;"
  else if c = '>' then "&gt;"
  else if c = '"' then "&quot;"
  else if c.toNat = 39 then "&#x27;"
  else String.singleton c

/-- Python `html.escape`: escape `&`, `<`, `>` and both quote
characters so the text can be embedded literally in the output
document. -/
def htmlEscape (s : String) : String :=
  String.join (s.toList.map escapeChar)

/-- The failure fragment appended by `main` when processing a page
raises: a heading naming the page followed by the escaped traceback in a
`pre` block. -/
def failureChunk (page escapedTb : String) : String :=
  "<h2>" ++ page ++ ": FAILED PROCESSING</h2>\n<pre>\n" ++ escapedTb ++ "\n</pre>\n"

/-- One registered page kind, as the harvest loop of `main` sees it: its
`page` key and the combined effect of `parse_page` plus
`get_html_chunks` — either the selected fragment list or the raised
error's detail. -/
structure PageProc where
  key : String
  process : Except String (List String)

/-- One iteration of the `main` loop, viewed as the outcome for that
page: success with the page's fragments, or failure with the page key
and the HTML-escaped error detail. -/
def pageOutcome (p : PageProc) : Outcome :=
  match p.process with
  | Except.ok chunks => Outcome.success chunks
  | Except.error e => Outcome.failure p.key (htmlEscape e)

/-- The harvest loop as an outcome sequence, one outcome per registered
page, in registry order. -/
def harvestOutcomes (pages : List PageProc) : List Outcome :=
  pages.map pageOutcome

/-- Fragments a single outcome contributes to `html_chunks`. -/
def renderOutcome : Outcome → List String
  | Outcome.success cs => cs
  | Outcome.failure k e => [failureChunk k e]

/-- The `html_chunks` accumulation of `main`: extend with the page's
chunks on success, append one failure fragment on error; the loop never
aborts. -/
def mainChunks (pages : List PageProc) : List String :=
  pages.foldl
    (fun acc p =>
      match p.process with
      | Except.ok chunks => acc ++ chunks
      | Except.error e => acc ++ [failureChunk p.key (htmlEscape e)])
    []

/-- One entry of the parsed `~/.netrc` mapping. -/
structure NetrcEntry where
  key : String
  login : String
  password : String

/-- The module-level credential check: `NETRC = ska_ftp.parse_netrc()`
followed by the `"periscope_drift_page" not in NETRC` guard, which
raises `RuntimeError` at import time. -/
def startupCheck (netrc : List NetrcEntry) : Except String Unit :=
  if netrc.any (fun en => en.key == "periscope_drift_page") then Except.ok ()
  else Except.error "must have periscope_drift_page authentication in ~/.netrc"

/-- A whole program run: module import performs the credential check
before `main` can run, so a failed check aborts before the harvest loop
produces any outcome. -/
def runProgram (netrc : List NetrcEntry) (pages : List PageProc) :
    Except String (List Outcome) :=
  match startupCheck netrc with
  | Except.error e => Except.error e
  | Except.ok _ => Except.ok (harvestOutcomes pages)

/-- Probe matrix for the counterexample to claim C1 as stated: Q4
answers 201 (a 2xx status) with interval 0..90, Q3 answers 200 with the
same interval, everything else 404. -/
def cprobeC1 : Nat → ProbeResponse
  | 4 => ⟨201, 0, 90⟩
  | 3 => ⟨200, 0, 90⟩
  | _ => ⟨404, 0, 0⟩

/-- Probe matrix for the end-to-end scenario of claim C1: only Q3
answers 200; its interval is days 0..91 of the quarter and "now" is day
14 (2024-07-15 in quarter 2024-07-01 .. 2024-09-30), before the
midpoint 45.5. -/
def cprobeScenario : Nat → ProbeResponse
  | 3 => ⟨200, 0, 91⟩
  | _ => ⟨404, 0, 0⟩

/-- Probe matrix for the counterexample to claim C2 as stated: Q4
answers 201 (a 2xx status but not 200), Q3 and Q2 answer 200, Q1
answers 404; all intervals are 0..90 and "now" = 60 is past every
midpoint. -/
def cprobeC2 : Nat → ProbeResponse
  | 4 => ⟨201, 0, 90⟩
  | 3 => ⟨200, 0, 90⟩
  | 2 => ⟨200, 0, 90⟩
  | _ => ⟨404, 0, 0⟩

/-- Probe matrix where every candidate answers 404. -/
def cprobe404 : Nat → ProbeResponse := fun _ => ⟨404, 0, 0⟩

/-- A page whose processing succeeds, for the harvest-loop witnesses. -/
def pageA : PageProc := ⟨"wrong_box_anom", Except.ok ["<h2>A</h2>"]⟩

/-- A page whose processing raises, for the harvest-loop witnesses. -/
def pageB : PageProc := ⟨"celmon", Except.error "IndexError: list index out of range"⟩

/-- Another page whose processing succeeds, for the harvest-loop
witnesses. -/
def pageC : PageProc := ⟨"vv_rms", Except.ok ["<h2>C</h2>"]⟩

/-- A document whose second anchor has no `href` attribute. -/
def badDoc : PageDoc := ⟨[⟨some "ok.html"⟩, ⟨none⟩], [⟨"p.png"⟩]⟩

/-- The loop characterised by `List.find?` on the candidate list: the
body runs exactly once, on the first candidate whose probe status is
200. -/
theorem reportsGetUrlAux_eq_find (page : String) (year : Nat) (nowSecs : ℚ)
    (probe : Nat → ProbeResponse) (l : List Nat) :
    reportsGetUrlAux page year nowSecs probe l =
      match l.find? (fun q => (probe q).status == 200) with
      | none => Except.error ("failed to find URL for " ++ page)
      | some q => Except.ok (quarterPick page year nowSecs probe q) := by
  induction l with
  | nil => rfl
  | cons q rest ih =>
    by_cases h : (probe q).status = 200
    · simp [reportsGetUrlAux, List.find?, h]
    · have hb : ((probe q).status == 200) = false := by simpa using h
      simp [reportsGetUrlAux, List.find?, h, hb, ih]

/-- Structure of one `quarterPick` result: the current-period component
is always the candidate's own URL, and the primary component is the
candidate's URL, the previous quarter's URL, or (for Q1) Q4 of the prior
year. -/
theorem quarterPick_cases (page : String) (year : Nat) (nowSecs : ℚ)
    (probe : Nat → ProbeResponse) (q : Nat) :
    (quarterPick page year nowSecs probe q).2 = quarterUrl page year q ∧
      ((quarterPick page year nowSecs probe q).1 = quarterUrl page year q ∨
        (quarterPick page year nowSecs probe q).1 = quarterUrl page year (q - 1) ∨
        (q = 1 ∧ (quarterPick page year nowSecs probe q).1 = quarterUrl page (year - 1) 4)) := by
  unfold quarterPick
  by_cases hm : (probe q).tstart + ((probe q).tstop - (probe q).tstart) / 2 < nowSecs
  · simp [hm]
  · by_cases hq : q = 1
    · subst hq
      simp [hm]
    · simp [hm, hq]

/-- Transport of `quarterPick_cases` along an equation with an explicit
pair. -/
theorem first_accepted_of_pick (page : String) (year : Nat) (nowSecs : ℚ)
    (probe : Nat → ProbeResponse) (q : Nat) (p c : String)
    (h : quarterPick page year nowSecs probe q = (p, c)) :
    c = quarterUrl page year q ∧
      (p = quarterUrl page year q ∨ p = quarterUrl page year (q - 1) ∨
        (q = 1 ∧ p = quarterUrl page (year - 1) 4)) := by
  have hc : (quarterPick page year nowSecs probe q).2 = c := by rw [h]
  have hp : (quarterPick page year nowSecs probe q).1 = p := by rw [h]
  obtain ⟨h2, h1⟩ := quarterPick_cases page year nowSecs probe q
  refine ⟨hc.symm.trans h2, ?_⟩
  rcases h1 with h1 | h1 | h1
  · exact Or.inl (hp.symm.trans h1)
  · exact Or.inr (Or.inl (hp.symm.trans h1))
  · exact Or.inr (Or.inr ⟨h1.1, hp.symm.trans h1.2⟩)

/-- Claim C1 (amended: the probe-acceptance test in the source is
`status_code == 200`, not any 2xx status).  When candidate quarter `q` is
the first of Q4, Q3, Q2, Q1 whose probe returned HTTP 200,
`ReportsPage.get_url` applies the midpoint rule to it: if "now" is past
the midpoint of the candidate's TSTART/TSTOP interval, the candidate's
URL is returned as both primary and current-period URL; otherwise the
previous quarter's URL is primary (Q4 of the prior year when the
candidate is Q1) and the candidate's URL is the current-period URL. -/
theorem reportsGetUrl_midpoint_rule (page : String) (year : Nat) (nowSecs : ℚ)
    (probe : Nat → ProbeResponse) (q : Nat)
    (hq : q ∈ [4, 3, 2, 1]) (h200 : (probe q).status = 200)
    (hfirst : ∀ r ∈ [4, 3, 2, 1], q < r → (probe r).status ≠ 200) :
    reportsGetUrl page year nowSecs probe =
      Except.ok
        (if (probe q).tstart + ((probe q).tstop - (probe q).tstart) / 2 < nowSecs then
          (quarterUrl page year q, quarterUrl page year q)
        else if q = 1 then
          (quarterUrl page (year - 1) 4, quarterUrl page year q)
        else
          (quarterUrl page year (q - 1), quarterUrl page year q)) := by
  simp only [List.mem_cons, List.not_mem_nil, or_false] at hq
  rcases hq with rfl | rfl | rfl | rfl
  · simp [reportsGetUrl, reportsGetUrlAux, h200, quarterPick]
  · have h4 : (probe 4).status ≠ 200 := hfirst 4 (by simp) (by omega)
    simp [reportsGetUrl, reportsGetUrlAux, h200, h4, quarterPick]
  · have h4 : (probe 4).status ≠ 200 := hfirst 4 (by simp) (by omega)
    have h3 : (probe 3).status ≠ 200 := hfirst 3 (by simp) (by omega)
    simp [reportsGetUrl, reportsGetUrlAux, h200, h4, h3, quarterPick]
  · have h4 : (probe 4).status ≠ 200 := hfirst 4 (by simp) (by omega)
    have h3 : (probe 3).status ≠ 200 := hfirst 3 (by simp) (by omega)
    have h2 : (probe 2).status ≠ 200 := hfirst 2 (by simp) (by omega)
    simp [reportsGetUrl, reportsGetUrlAux, h200, h4, h3, h2, quarterPick]

/-- Claim C1, counterexample to the claim as stated.  With `cprobeC1`
and now = 60, the first candidate whose probe returns a 2xx status is
Q4, and "now" is past Q4's midpoint (45), so the claimed midpoint rule
would return Q4's URL as both components; the source instead skips the
201 response (it accepts only status 200) and returns Q3's URL twice. -/
theorem reportsGetUrl_midpoint_2xx_cex :
    (200 ≤ (cprobeC1 4).status ∧ (cprobeC1 4).status < 300) ∧
    ((cprobeC1 4).tstart + ((cprobeC1 4).tstop - (cprobeC1 4).tstart) / 2 < (60 : ℚ)) ∧
    reportsGetUrl "acq_stat_reports" 2024 60 cprobeC1 ≠
      Except.ok
        (quarterUrl "acq_stat_reports" 2024 4, quarterUrl "acq_stat_reports" 2024 4) ∧
    reportsGetUrl "acq_stat_reports" 2024 60 cprobeC1 =
      Except.ok
        (quarterUrl "acq_stat_reports" 2024 3, quarterUrl "acq_stat_reports" 2024 3) := by
  have hres : reportsGetUrl "acq_stat_reports" 2024 60 cprobeC1 =
      Except.ok
        (quarterUrl "acq_stat_reports" 2024 3, quarterUrl "acq_stat_reports" 2024 3) := by
    norm_num [reportsGetUrl, reportsGetUrlAux, cprobeC1, quarterPick]
  refine ⟨by decide, by norm_num [cprobeC1], ?_, hres⟩
  rw [hres]
  intro hbad
  rw [Except.ok.injEq, Prod.mk.injEq] at hbad
  exact absurd hbad.1 (by decide)

/-- Claim C1, witness: the spec's end-to-end scenario.  Q3 is the first
candidate answering 200 and "now" is before its midpoint, so the
resolver returns Q2 as primary and Q3 as current-period URL. -/
theorem reportsGetUrl_midpoint_rule_witness :
    reportsGetUrl "acq_stat_reports" 2024 14 cprobeScenario =
      Except.ok
        ("https://cxc.cfa.harvard.edu/mta/ASPECT/acq_stat_reports/2024/Q2/",
          "https://cxc.cfa.harvard.edu/mta/ASPECT/acq_stat_reports/2024/Q3/") := by
  rw [reportsGetUrl_midpoint_rule "acq_stat_reports" 2024 14 cprobeScenario 3 (by decide)
    (by decide) (by decide)]
  norm_num [cprobeScenario]
  exact ⟨rfl, rfl⟩

/-- Claim C2 (amended): every successful quarterly resolution is derived
from the first candidate of Q4, Q3, Q2, Q1 of the current year (the
source always starts at Q4, regardless of the current calendar quarter)
whose probe returned HTTP 200: that candidate's own URL is the
current-period component, and the primary component is that candidate's
URL, the previous quarter's, or Q4 of the prior year. -/
theorem reportsGetUrl_first_accepted (page : String) (year : Nat) (nowSecs : ℚ)
    (probe : Nat → ProbeResponse) (p c : String)
    (h : reportsGetUrl page year nowSecs probe = Except.ok (p, c)) :
    ∃ q ∈ [4, 3, 2, 1], (probe q).status = 200 ∧
      (∀ r ∈ [4, 3, 2, 1], q < r → (probe r).status ≠ 200) ∧
      c = quarterUrl page year q ∧
      (p = quarterUrl page year q ∨ p = quarterUrl page year (q - 1) ∨
        (q = 1 ∧ p = quarterUrl page (year - 1) 4)) := by
  by_cases h4 : (probe 4).status = 200
  · simp only [reportsGetUrl, reportsGetUrlAux, if_pos h4, Except.ok.injEq] at h
    refine ⟨4, by simp, h4, fun r hr hlt => ?_,
      first_accepted_of_pick page year nowSecs probe 4 p c h⟩
    simp only [List.mem_cons, List.not_mem_nil, or_false] at hr
    exact absurd hlt (by omega)
  · by_cases h3 : (probe 3).status = 200
    · simp only [reportsGetUrl, reportsGetUrlAux, if_neg h4, if_pos h3,
        Except.ok.injEq] at h
      refine ⟨3, by simp, h3, fun r hr hlt => ?_,
        first_accepted_of_pick page year nowSecs probe 3 p c h⟩
      simp only [List.mem_cons, List.not_mem_nil, or_false] at hr
      have hr4 : r = 4 := by omega
      rw [hr4]; exact h4
    · by_cases h2 : (probe 2).status = 200
      · simp only [reportsGetUrl, reportsGetUrlAux, if_neg h4, if_neg h3, if_pos h2,
          Except.ok.injEq] at h
        refine ⟨2, by simp, h2, fun r hr hlt => ?_,
          first_accepted_of_pick page year nowSecs probe 2 p c h⟩
        simp only [List.mem_cons, List.not_mem_nil, or_false] at hr
        rcases (by omega : r = 4 ∨ r = 3) with rfl | rfl
        · exact h4
        · exact h3
      · by_cases h1 : (probe 1).status = 200
        · simp only [reportsGetUrl, reportsGetUrlAux, if_neg h4, if_neg h3, if_neg h2,
            if_pos h1, Except.ok.injEq] at h
          refine ⟨1, by simp, h1, fun r hr hlt => ?_,
            first_accepted_of_pick page year nowSecs probe 1 p c h⟩
          simp only [List.mem_cons, List.not_mem_nil, or_false] at hr
          rcases (by omega : r = 4 ∨ r = 3 ∨ r = 2) with rfl | rfl | rfl
          · exact h4
          · exact h3
          · exact h2
        · simp [reportsGetUrl, reportsGetUrlAux, h4, h3, h2, h1] at h

/-- Claim C2, counterexample to the claim as stated.  With "now" in
calendar quarter 2, enumeration from the current calendar quarter (the
spec's wording, `reportsGetUrlSpecOrder`) resolves to Q2's URL, while
the source resolves to Q3's URL: the source starts at Q4, not at the
current calendar quarter.  Moreover Q4's probe answered the 2xx status
201, yet the source's result is not derived from Q4 either — the probe
acceptance test is status 200 exactly, not 2xx. -/
theorem reportsGetUrl_order_cex :
    reportsGetUrlSpecOrder "acq_stat_reports" 2024 2 60 cprobeC2 =
      Except.ok
        (quarterUrl "acq_stat_reports" 2024 2, quarterUrl "acq_stat_reports" 2024 2) ∧
    reportsGetUrl "acq_stat_reports" 2024 60 cprobeC2 =
      Except.ok
        (quarterUrl "acq_stat_reports" 2024 3, quarterUrl "acq_stat_reports" 2024 3) ∧
    quarterUrl "acq_stat_reports" 2024 3 ≠ quarterUrl "acq_stat_reports" 2024 2 ∧
    ((cprobeC2 4).status = 201 ∧ 200 ≤ (cprobeC2 4).status ∧ (cprobeC2 4).status < 300) ∧
    reportsGetUrl "acq_stat_reports" 2024 60 cprobeC2 ≠
      Except.ok
        (quarterUrl "acq_stat_reports" 2024 4, quarterUrl "acq_stat_reports" 2024 4) := by
  have hres : reportsGetUrl "acq_stat_reports" 2024 60 cprobeC2 =
      Except.ok
        (quarterUrl "acq_stat_reports" 2024 3, quarterUrl "acq_stat_reports" 2024 3) := by
    norm_num [reportsGetUrl, reportsGetUrlAux, cprobeC2, quarterPick]
  have hlist : (List.range' 1 2).reverse = [2, 1] := rfl
  have hspec : reportsGetUrlSpecOrder "acq_stat_reports" 2024 2 60 cprobeC2 =
      Except.ok
        (quarterUrl "acq_stat_reports" 2024 2, quarterUrl "acq_stat_reports" 2024 2) := by
    rw [reportsGetUrlSpecOrder, hlist]
    norm_num [reportsGetUrlAux, cprobeC2, quarterPick]
  refine ⟨hspec, hres, by decide, by decide, ?_⟩
  rw [hres]
  intro hbad
  rw [Except.ok.injEq, Prod.mk.injEq] at hbad
  exact absurd hbad.1 (by decide)

/-- Claim C2, witness for the amended theorem at the `cprobeC1` matrix:
the resolution succeeds with Q3's URL in both components, and Q3 is the
first status-200 candidate counted from Q4 backward. -/
theorem reportsGetUrl_first_accepted_witness :
    ∃ q ∈ [4, 3, 2, 1], (cprobeC1 q).status = 200 ∧
      (∀ r ∈ [4, 3, 2, 1], q < r → (cprobeC1 r).status ≠ 200) ∧
      quarterUrl "acq_stat_reports" 2024 3 = quarterUrl "acq_stat_reports" 2024 q ∧
      (quarterUrl "acq_stat_reports" 2024 3 = quarterUrl "acq_stat_reports" 2024 q ∨
        quarterUrl "acq_stat_reports" 2024 3 = quarterUrl "acq_stat_reports" 2024 (q - 1) ∨
        (q = 1 ∧
          quarterUrl "acq_stat_reports" 2024 3 = quarterUrl "acq_stat_reports" (2024 - 1) 4)) :=
  reportsGetUrl_first_accepted "acq_stat_reports" 2024 60 cprobeC1
    (quarterUrl "acq_stat_reports" 2024 3) (quarterUrl "acq_stat_reports" 2024 3)
    (by norm_num [reportsGetUrl, reportsGetUrlAux, cprobeC1, quarterPick])

/-- Claim C8: if all four candidate quarter probes return a non-2xx
status, `ReportsPage.get_url` terminates with the resolution failure
`RuntimeError(f"failed to find URL for {self.page}")`, naming the page,
instead of returning a URL. -/
theorem reportsGetUrl_exhausted (page : String) (year : Nat) (nowSecs : ℚ)
    (probe : Nat → ProbeResponse)
    (h : ∀ q ∈ [4, 3, 2, 1], ¬(200 ≤ (probe q).status ∧ (probe q).status < 300)) :
    reportsGetUrl page year nowSecs probe =
      Except.error ("failed to find URL for " ++ page) := by
  have hne : ∀ q ∈ [4, 3, 2, 1], (probe q).status ≠ 200 := by
    intro q hq he
    exact h q hq (by rw [he]; omega)
  have h4 := hne 4 (by simp)
  have h3 := hne 3 (by simp)
  have h2 := hne 2 (by simp)
  have h1 := hne 1 (by simp)
  simp [reportsGetUrl, reportsGetUrlAux, h4, h3, h2, h1]

/-- Claim C8, witness: with every probe answering 404 the resolver
raises the failure naming the page. -/
theorem reportsGetUrl_exhausted_witness :
    reportsGetUrl "gui_stat_reports" 2025 100 cprobe404 =
      Except.error "failed to find URL for gui_stat_reports" :=
  (reportsGetUrl_exhausted "gui_stat_reports" 2025 100 cprobe404 (by decide)).trans rfl

/-- Claim C3 (amended: the current-period component returned by
`PerigeePage.get_url` is the empty string, not a second copy of the
primary URL).  If the day-of-month of "now" is greater than 15, resolve
returns the current month's SUMMARY_DATA URL as primary; if the
day-of-month is 15 or less, it returns the prior calendar month's URL as
primary, crossing the year boundary (January steps back to December of
the previous year); the current-period component is `""` in both
cases. -/
theorem perigeeGetUrl_month_rule (page : String) (now : SDate) :
    (15 < now.day →
      perigeeGetUrl page now = (monthUrl page now.year now.month, "")) ∧
    (now.day ≤ 15 →
      perigeeGetUrl page now =
        (monthUrl page (if now.month = 1 then now.year - 1 else now.year)
          (if now.month = 1 then 12 else now.month - 1), "")) := by
  constructor
  · intro h
    simp [perigeeGetUrl, h]
  · intro h
    have h27 : ¬(27 < now.day) := by omega
    have h15 : ¬(15 < now.day) := by omega
    by_cases hm : now.month = 1
    · simp [perigeeGetUrl, subDays27, h15, h27, hm]
    · simp [perigeeGetUrl, subDays27, h15, h27, hm]

/-- Claim C3, counterexample to the claim as stated: on 2024-07-20
(day-of-month > 15) the primary URL is July's summary URL, but the
current-period component is the empty string, not a second copy of the
primary URL. -/
theorem perigeeGetUrl_current_period_cex :
    (perigeeGetUrl "perigee_health_plots" ⟨2024, 7, 20⟩).1 =
      "https://cxc.cfa.harvard.edu/mta/ASPECT/perigee_health_plots/SUMMARY_DATA/2024-M07/" ∧
    (perigeeGetUrl "perigee_health_plots" ⟨2024, 7, 20⟩).2 = "" ∧
    (perigeeGetUrl "perigee_health_plots" ⟨2024, 7, 20⟩).2 ≠
      (perigeeGetUrl "perigee_health_plots" ⟨2024, 7, 20⟩).1 := by
  refine ⟨rfl, rfl, ?_⟩
  decide

/-- Claim C3, witness: day 20 of January 2025 resolves to January 2025;
day 5 of January 2025 resolves to December 2024. -/
theorem perigeeGetUrl_month_rule_witness :
    perigeeGetUrl "perigee_health_plots" ⟨2025, 1, 20⟩ =
      (monthUrl "perigee_health_plots" 2025 1, "") ∧
    perigeeGetUrl "perigee_health_plots" ⟨2025, 1, 5⟩ =
      (monthUrl "perigee_health_plots" 2024 12, "") :=
  ⟨(perigeeGetUrl_month_rule "perigee_health_plots" ⟨2025, 1, 20⟩).1 (by decide),
    ((perigeeGetUrl_month_rule "perigee_health_plots" ⟨2025, 1, 5⟩).2 (by decide)).trans rfl⟩

/-- Claim C5 (amended: the status test of `get_page_request` is
`status_code != 200`, so every status other than exactly 200 — 2xx
included — fails).  The fetch of a resolved URL raises
`RuntimeError(f"Investigate issues with {self.url}")`, with the
offending URL attached, exactly when the status is not 200, and returns
the response otherwise; there is no retry at this layer. -/
theorem getPageRequest_status_check (url : String) (status : Nat) (body : String) :
    (status ≠ 200 →
      getPageRequest url status body =
        Except.error ("Investigate issues with " ++ url)) ∧
    (status = 200 → getPageRequest url status body = Except.ok body) := by
  constructor
  · intro h
    simp [getPageRequest, h]
  · intro h
    simp [getPageRequest, h]

/-- Claim C5, counterexample to the claim as stated: 204 is a 2xx
status, so under the claim the fetch succeeds, but the source raises
because the status is not exactly 200. -/
theorem getPageRequest_2xx_cex :
    ((200 : Nat) ≤ 204 ∧ (204 : Nat) < 300) ∧
    getPageRequest "https://cxc.cfa.harvard.edu/mta/ASPECT/celmon/" 204 "body" =
      Except.error
        "Investigate issues with https://cxc.cfa.harvard.edu/mta/ASPECT/celmon/" :=
  ⟨by omega, rfl⟩

/-- Claim C5, witness: a 404 response raises with the URL attached; a
200 response returns the body. -/
theorem getPageRequest_status_check_witness :
    getPageRequest "https://cxc.cfa.harvard.edu/mta/ASPECT/vv_rms/" 404 "nope" =
      Except.error "Investigate issues with https://cxc.cfa.harvard.edu/mta/ASPECT/vv_rms/" ∧
    getPageRequest "https://cxc.cfa.harvard.edu/mta/ASPECT/vv_rms/" 200 "body" =
      Except.ok "body" :=
  ⟨((getPageRequest_status_check "https://cxc.cfa.harvard.edu/mta/ASPECT/vv_rms/" 404
      "nope").1 (by decide)).trans rfl,
    (getPageRequest_status_check "https://cxc.cfa.harvard.edu/mta/ASPECT/vv_rms/" 200
      "body").2 rfl⟩

/-- Every element of `dictInsert d k v` is an element of `d` or the
inserted pair. -/
theorem mem_of_mem_dictInsert (d : List (String × String)) (k v : String)
    (kv : String × String) (h : kv ∈ dictInsert d k v) : kv ∈ d ∨ kv = (k, v) := by
  induction d with
  | nil =>
    simp only [dictInsert, List.mem_singleton] at h
    exact Or.inr h
  | cons p rest ih =>
    by_cases hk : p.1 = k
    · simp only [dictInsert, if_pos hk] at h
      rcases List.mem_cons.mp h with h1 | h1
      · exact Or.inr h1
      · exact Or.inl (List.mem_cons_of_mem p h1)
    · simp only [dictInsert, if_neg hk] at h
      rcases List.mem_cons.mp h with h1 | h1
      · rw [h1]
        exact Or.inl (List.mem_cons_self p rest)
      · rcases ih h1 with h2 | h2
        · exact Or.inl (List.mem_cons_of_mem p h2)
        · exact Or.inr h2

/-- The inserted pair is present after `dictInsert`. -/
theorem self_mem_dictInsert (d : List (String × String)) (k v : String) :
    (k, v) ∈ dictInsert d k v := by
  induction d with
  | nil => simp [dictInsert]
  | cons p rest ih =>
    by_cases hk : p.1 = k
    · simp only [dictInsert, if_pos hk]
      exact List.mem_cons_self _ _
    · simp only [dictInsert, if_neg hk]
      exact List.mem_cons_of_mem p ih

/-- Pairs with a different key survive `dictInsert`. -/
theorem mem_dictInsert_of_mem (d : List (String × String)) (k v : String)
    (kv : String × String) (hne : kv.1 ≠ k) (h : kv ∈ d) :
    kv ∈ dictInsert d k v := by
  induction d with
  | nil => simp at h
  | cons p rest ih =>
    rcases List.mem_cons.mp h with h1 | h1
    · by_cases hk : p.1 = k
      · exact absurd (by rw [h1]; exact hk) hne
      · simp only [dictInsert, if_neg hk]
        rw [h1]
        exact List.mem_cons_self p _
    · by_cases hk : p.1 = k
      · simp only [dictInsert, if_pos hk]
        exact List.mem_cons_of_mem _ h1
      · simp only [dictInsert, if_neg hk]
        exact List.mem_cons_of_mem p (ih h1)

/-- Loop invariant for `get_images`, key membership: after folding the
remaining images over accumulator `d`, a key is present exactly when it
was present in `d` or some remaining image carries it as `src` and
passes the suffix test. -/
theorem getImages_loop_keys (url : String) (imgs : List ImgTag) :
    ∀ (d : List (String × String)) (k : String),
      (∃ v, (k, v) ∈ imgs.foldl
        (fun d img =>
          if imgWanted img.src then dictInsert d img.src (imgFragment url img.src)
          else d) d) ↔
      ((∃ v, (k, v) ∈ d) ∨ ∃ i ∈ imgs, i.src = k ∧ imgWanted i.src = true) := by
  induction imgs with
  | nil =>
    intro d k
    simp
  | cons i rest ih =>
    intro d k
    rw [List.foldl_cons, ih]
    constructor
    · rintro (⟨v, hv⟩ | ⟨j, hj, hjs, hjw⟩)
      · by_cases hw : imgWanted i.src
        · rw [if_pos hw] at hv
          rcases mem_of_mem_dictInsert _ _ _ _ hv with h1 | h1
          · exact Or.inl ⟨v, h1⟩
          · have hik : i.src = k := (congrArg Prod.fst h1).symm
            exact Or.inr ⟨i, List.mem_cons_self i rest, hik, hw⟩
        · rw [if_neg hw] at hv
          exact Or.inl ⟨v, hv⟩
      · exact Or.inr ⟨j, List.mem_cons_of_mem i hj, hjs, hjw⟩
    · rintro (⟨v, hv⟩ | ⟨j, hj, hjs, hjw⟩)
      · by_cases hw : imgWanted i.src
        · rw [if_pos hw]
          by_cases hk : k = i.src
          · subst hk
            exact Or.inl ⟨imgFragment url i.src, self_mem_dictInsert d i.src _⟩
          · exact Or.inl ⟨v, mem_dictInsert_of_mem d i.src _ (k, v) hk hv⟩
        · rw [if_neg hw]
          exact Or.inl ⟨v, hv⟩
      · rcases List.mem_cons.mp hj with heq | hj2
        · subst heq
          subst hjs
          rw [if_pos hjw]
          exact Or.inl ⟨imgFragment url j.src, self_mem_dictInsert d j.src _⟩
        · exact Or.inr ⟨j, hj2, hjs, hjw⟩

/-- Loop invariant for `get_images`, values: every value in the mapping
is the absolute-URL fragment of its key. -/
theorem getImages_loop_values (url : String) (imgs : List ImgTag) :
    ∀ d : List (String × String),
      (∀ kv ∈ d, kv.2 = imgFragment url kv.1) →
      ∀ kv ∈ imgs.foldl
        (fun d img =>
          if imgWanted img.src then dictInsert d img.src (imgFragment url img.src)
          else d) d,
        kv.2 = imgFragment url kv.1 := by
  induction imgs with
  | nil =>
    intro d hd
    simpa using hd
  | cons i rest ih =>
    intro d hd
    rw [List.foldl_cons]
    apply ih
    intro kv hkv
    by_cases hw : imgWanted i.src
    · rw [if_pos hw] at hkv
      rcases mem_of_mem_dictInsert _ _ _ _ hkv with h1 | h1
      · exact hd kv h1
      · rw [h1]
    · rw [if_neg hw] at hkv
      exact hd kv hkv

/-- Claim C6 (amended: the suffix test of the source is
`endswith(".png") or endswith("gif")` — the gif alternative has no
leading dot).  An image is included in the extracted mapping exactly
when its source ends in `.png` or in `gif` (case-sensitively); the
mapping is keyed by the original pre-rewrite source path and every value
is the absolute-URL `<img>` fragment for that key. -/
theorem getImages_membership (imgs : List ImgTag) (url : String) :
    (∀ k : String,
      (∃ v, (k, v) ∈ getImages imgs url) ↔
        ∃ i ∈ imgs, i.src = k ∧ (endsWithStr k ".png" || endsWithStr k "gif") = true) ∧
    (∀ kv ∈ getImages imgs url, kv.2 = imgFragment url kv.1) := by
  constructor
  · intro k
    rw [getImages, getImages_loop_keys url imgs [] k]
    simp only [List.not_mem_nil, exists_const, false_or]
    constructor
    · rintro ⟨i, hi, hsrc, hw⟩
      subst hsrc
      exact ⟨i, hi, rfl, hw⟩
    · rintro ⟨i, hi, hsrc, hw⟩
      subst hsrc
      exact ⟨i, hi, rfl, hw⟩
  · rw [getImages]
    apply getImages_loop_values url imgs []
    intro kv h
    simp at h

/-- Claim C6, counterexample to the claim as stated: a source ending in
`gif` without the dot (here `"acq_id_gif"`) is included in the mapping
although it ends neither in `.png` nor in `.gif` — the source's suffix
test for gif lacks the dot. -/
theorem getImages_gif_suffix_cex :
    (∃ v, ("acq_id_gif", v) ∈ getImages [⟨"acq_id_gif"⟩] "u/") ∧
    endsWithStr "acq_id_gif" ".gif" = false ∧
    endsWithStr "acq_id_gif" ".png" = false := by
  refine ⟨⟨imgFragment "u/" "acq_id_gif", ?_⟩, by decide, by decide⟩
  have hw : imgWanted "acq_id_gif" = true := by decide
  simp [getImages, hw, dictInsert]

/-- Claim C6, witness: a `.png` source is included; a `.jpg` source
present in the markup does not appear in the extracted mapping. -/
theorem getImages_membership_witness :
    (∃ v, ("delta_mag_scatter.png", v) ∈
      getImages [⟨"delta_mag_scatter.png"⟩, ⟨"notes.jpg"⟩] "u/") ∧
    ¬(∃ v, ("notes.jpg", v) ∈
      getImages [⟨"delta_mag_scatter.png"⟩, ⟨"notes.jpg"⟩] "u/") := by
  constructor
  · exact ((getImages_membership [⟨"delta_mag_scatter.png"⟩, ⟨"notes.jpg"⟩] "u/").1
      "delta_mag_scatter.png").mpr
      ⟨⟨"delta_mag_scatter.png"⟩, by simp, rfl, by decide⟩
  · intro hv
    obtain ⟨i, hi, hsrc, hw⟩ :=
      ((getImages_membership [⟨"delta_mag_scatter.png"⟩, ⟨"notes.jpg"⟩] "u/").1
        "notes.jpg").mp hv
    exact absurd hw (by decide)

/-- Rewritten anchor lists only contain hrefs prefixed with the base
URL. -/
theorem rewriteAnchorList_mem (url : String) (anchors : List ATag) :
    ∀ out : List ATag, rewriteAnchorList url anchors = Except.ok out →
      ∀ a ∈ out, ∃ rest, a.href = some (url ++ rest) := by
  induction anchors with
  | nil =>
    intro out hok a ha
    simp only [rewriteAnchorList, Except.ok.injEq] at hok
    rw [← hok] at ha
    simp at ha
  | cons b tail ih =>
    intro out hok a ha
    cases hb : b.href with
    | none =>
      simp only [rewriteAnchorList, hb] at hok
      exact Except.noConfusion hok
    | some h =>
      cases hr : rewriteAnchorList url tail with
      | error e =>
        simp only [rewriteAnchorList, hb, hr] at hok
        exact Except.noConfusion hok
      | ok out2 =>
        simp only [rewriteAnchorList, hb, hr, Except.ok.injEq] at hok
        rw [← hok] at ha
        rcases List.mem_cons.mp ha with h1 | h1
        · exact ⟨h, by rw [h1]⟩
        · exact ih out2 hr a h1

/-- An anchor with no `href` attribute makes the rewriting loop raise. -/
theorem rewriteAnchorList_error (url : String) (anchors : List ATag)
    (hbad : ∃ a ∈ anchors, a.href = none) :
    ∃ e, rewriteAnchorList url anchors = Except.error e := by
  induction anchors with
  | nil => simp at hbad
  | cons a tail ih =>
    obtain ⟨b, hb, hbn⟩ := hbad
    rcases List.mem_cons.mp hb with heq | hb2
    · refine ⟨"KeyError: href", ?_⟩
      subst heq
      simp only [rewriteAnchorList, hbn]
    · cases ha : a.href with
      | none =>
        refine ⟨"KeyError: href", ?_⟩
        simp only [rewriteAnchorList, ha]
      | some h =>
        obtain ⟨e, he⟩ := ih ⟨b, hb2, hbn⟩
        refine ⟨e, ?_⟩
        simp only [rewriteAnchorList, ha, he]

/-- Claim C7: for every page kind other than celmon, extraction prefixes
the base URL to every anchor href, so every anchor of a successfully
extracted page exposes an href starting with the base URL; every image
value is an `<img>` fragment whose src is the base URL followed by the
image's relative path; and for the exempt celmon kind the anchors are
returned unmodified. -/
theorem extract_absolute_urls (page url : String) (anchors out : List ATag)
    (imgs : List ImgTag) (hpage : page ≠ "celmon")
    (hok : rewriteAnchors page url anchors = Except.ok out) :
    (∀ a ∈ out, ∃ rest, a.href = some (url ++ rest)) ∧
    (∀ kv ∈ getImages imgs url, ∃ rest,
      kv.2 = "<img src = \"" ++ (url ++ rest) ++ "\" style=\"max-width:800px\">") ∧
    (∀ anchors2 : List ATag, rewriteAnchors "celmon" url anchors2 = Except.ok anchors2) := by
  refine ⟨?_, ?_, ?_⟩
  · rw [rewriteAnchors, if_neg hpage] at hok
    exact rewriteAnchorList_mem url anchors out hok
  · intro kv hkv
    have hv : kv.2 = imgFragment url kv.1 := by
      apply getImages_loop_values url imgs []
      · intro kv2 h2
        simp at h2
      · rw [getImages] at hkv
        exact hkv
    refine ⟨kv.1, ?_⟩
    rw [hv]
    simp [imgFragment, String.append_assoc]
  · intro anchors2
    simp [rewriteAnchors]

/-- Claim C7, witness: a relative anchor and a relative image emerge
with the base URL prefixed, and celmon anchors pass through untouched. -/
theorem extract_absolute_urls_witness :
    (∀ a ∈ [(⟨some ("https://b/" ++ "x.html")⟩ : ATag)],
      ∃ rest, a.href = some ("https://b/" ++ rest)) ∧
    (∀ kv ∈ getImages [⟨"p.png"⟩] "https://b/", ∃ rest,
      kv.2 = "<img src = \"" ++ ("https://b/" ++ rest) ++ "\" style=\"max-width:800px\">") ∧
    (∀ anchors2 : List ATag,
      rewriteAnchors "celmon" "https://b/" anchors2 = Except.ok anchors2) :=
  extract_absolute_urls "vv_rms" "https://b/" [⟨some "x.html"⟩]
    [⟨some ("https://b/" ++ "x.html")⟩] [⟨"p.png"⟩] (by decide) rfl

/-- Claim C10: for a non-celmon page, a document containing an anchor
with no `href` attribute makes `parse_page` raise (the attribute lookup
fails), and the harvest loop then records that page as a Failure
outcome carrying the escaped error detail, whatever the page's
fragment-selector would have chosen. -/
theorem missing_href_fails_page (page url : String) (doc : PageDoc)
    (sel : List ATag × List (String × String) → List String)
    (hpage : page ≠ "celmon") (hbad : ∃ a ∈ doc.anchors, a.href = none) :
    ∃ e, parsePage page url doc = Except.error e ∧
      harvestOutcomes [⟨page, Except.map sel (parsePage page url doc)⟩] =
        [Outcome.failure page (htmlEscape e)] := by
  obtain ⟨e, he⟩ := rewriteAnchorList_error url doc.anchors hbad
  have hpp : parsePage page url doc = Except.error e := by
    simp [parsePage, rewriteAnchors, hpage, he]
  exact ⟨e, hpp, by simp [harvestOutcomes, pageOutcome, hpp, Except.map]⟩

/-- Claim C10, witness: `badDoc` has a second anchor with no `href`;
processing the page fails as a whole and its harvest outcome is a
Failure. -/
theorem missing_href_fails_page_witness :
    ∃ e, parsePage "fss_check3" "https://b/" badDoc = Except.error e ∧
      harvestOutcomes
        [⟨"fss_check3",
          Except.map (fun x => x.2.map Prod.snd)
            (parsePage "fss_check3" "https://b/" badDoc)⟩] =
        [Outcome.failure "fss_check3" (htmlEscape e)] :=
  missing_href_fails_page "fss_check3" "https://b/" badDoc (fun x => x.2.map Prod.snd)
    (by decide) ⟨⟨none⟩, by simp [badDoc], rfl⟩

/-- The `html_chunks` fold over any starting accumulator equals the
accumulator followed by the fold from the empty accumulator. -/
theorem mainChunks_foldl_acc (pages : List PageProc) :
    ∀ acc : List String,
      pages.foldl
        (fun acc p =>
          match p.process with
          | Except.ok chunks => acc ++ chunks
          | Except.error e => acc ++ [failureChunk p.key (htmlEscape e)]) acc =
      acc ++ pages.foldl
        (fun acc p =>
          match p.process with
          | Except.ok chunks => acc ++ chunks
          | Except.error e => acc ++ [failureChunk p.key (htmlEscape e)]) [] := by
  induction pages with
  | nil =>
    intro acc
    simp
  | cons p ps ih =>
    intro acc
    rw [List.foldl_cons, ih]
    conv_rhs => rw [List.foldl_cons, ih]
    rw [← List.append_assoc]
    congr 1
    cases hp : p.process with
    | ok cs => simp [hp]
    | error e => simp [hp]

/-- The flat `html_chunks` list of `main` is the concatenation, in
registry order, of what each page's outcome renders: selected fragments
for successes, one failure fragment for failures. -/
theorem mainChunks_eq_outcomes (pages : List PageProc) :
    mainChunks pages = ((harvestOutcomes pages).map renderOutcome).flatten := by
  induction pages with
  | nil => rfl
  | cons p ps ih =>
    rw [mainChunks, List.foldl_cons, mainChunks_foldl_acc]
    rw [mainChunks] at ih
    cases hp : p.process with
    | ok cs =>
      simp only [hp, List.nil_append]
      rw [ih]
      simp [harvestOutcomes, pageOutcome, renderOutcome, hp]
    | error e =>
      simp only [hp, List.nil_append]
      rw [ih]
      simp [harvestOutcomes, pageOutcome, renderOutcome, hp]

/-- Claim C4: when exactly one registered page fails (every page before
and after it processes successfully and the failing page raises error
`e`), the outcome sequence has one outcome per registered page in
registry order, the failing page's outcome is the only Failure — placed
at the failing page's registry position and carrying the HTML-escaped
error detail — all other outcomes are Successes, and the loop never
aborts: the final `html_chunks` still concatenates every page's
rendered outcome. -/
theorem harvest_isolates_failure (pre post : List PageProc) (fp : PageProc) (e : String)
    (hpre : ∀ p ∈ pre, ∃ cs, p.process = Except.ok cs)
    (hpost : ∀ p ∈ post, ∃ cs, p.process = Except.ok cs)
    (hfail : fp.process = Except.error e) :
    (harvestOutcomes (pre ++ fp :: post)).length = (pre ++ fp :: post).length ∧
    harvestOutcomes (pre ++ fp :: post) =
      harvestOutcomes pre ++
        Outcome.failure fp.key (htmlEscape e) :: harvestOutcomes post ∧
    (harvestOutcomes pre).length = pre.length ∧
    (harvestOutcomes post).length = post.length ∧
    (∀ o ∈ harvestOutcomes pre, ∃ cs, o = Outcome.success cs) ∧
    (∀ o ∈ harvestOutcomes post, ∃ cs, o = Outcome.success cs) ∧
    mainChunks (pre ++ fp :: post) =
      ((harvestOutcomes (pre ++ fp :: post)).map renderOutcome).flatten := by
  refine ⟨by simp [harvestOutcomes], ?_, by simp [harvestOutcomes],
    by simp [harvestOutcomes], ?_, ?_, mainChunks_eq_outcomes (pre ++ fp :: post)⟩
  · simp [harvestOutcomes, pageOutcome, hfail]
  · intro o ho
    obtain ⟨p, hp, hpo⟩ := List.mem_map.mp ho
    obtain ⟨cs, hcs⟩ := hpre p hp
    exact ⟨cs, by rw [← hpo]; simp [pageOutcome, hcs]⟩
  · intro o ho
    obtain ⟨p, hp, hpo⟩ := List.mem_map.mp ho
    obtain ⟨cs, hcs⟩ := hpost p hp
    exact ⟨cs, by rw [← hpo]; simp [pageOutcome, hcs]⟩

/-- Claim C4, witness: three registered pages of which the middle one
raises; the outcome sequence keeps length three in registry order with
exactly the middle page marked as Failure. -/
theorem harvest_isolates_failure_witness :
    (harvestOutcomes ([pageA] ++ pageB :: [pageC])).length =
      ([pageA] ++ pageB :: [pageC]).length ∧
    harvestOutcomes ([pageA] ++ pageB :: [pageC]) =
      harvestOutcomes [pageA] ++
        Outcome.failure pageB.key (htmlEscape "IndexError: list index out of range") ::
          harvestOutcomes [pageC] ∧
    (harvestOutcomes [pageA]).length = [pageA].length ∧
    (harvestOutcomes [pageC]).length = [pageC].length ∧
    (∀ o ∈ harvestOutcomes [pageA], ∃ cs, o = Outcome.success cs) ∧
    (∀ o ∈ harvestOutcomes [pageC], ∃ cs, o = Outcome.success cs) ∧
    mainChunks ([pageA] ++ pageB :: [pageC]) =
      ((harvestOutcomes ([pageA] ++ pageB :: [pageC])).map renderOutcome).flatten :=
  harvest_isolates_failure [pageA] [pageC] pageB "IndexError: list index out of range"
    (by
      intro p hp
      rw [List.mem_singleton] at hp
      exact ⟨["<h2>A</h2>"], by rw [hp]; rfl⟩)
    (by
      intro p hp
      rw [List.mem_singleton] at hp
      exact ⟨["<h2>C</h2>"], by rw [hp]; rfl⟩)
    rfl

/-- Claim C9: if no netrc entry carries the required key, the program
aborts at startup with the fatal configuration error, before the harvest
loop can produce any outcome — the missing credential is never converted
into a per-page Failure outcome. -/
theorem startup_missing_credential (netrc : List NetrcEntry) (pages : List PageProc)
    (h : ∀ en ∈ netrc, en.key ≠ "periscope_drift_page") :
    runProgram netrc pages =
      Except.error "must have periscope_drift_page authentication in ~/.netrc" ∧
    ∀ outs : List Outcome, runProgram netrc pages ≠ Except.ok outs := by
  have hany : netrc.any (fun en => en.key == "periscope_drift_page") = false := by
    rw [List.any_eq_false]
    intro en hen
    simpa using h en hen
  constructor
  · simp [runProgram, startupCheck, hany]
  · intro outs hco
    simp [runProgram, startupCheck, hany] at hco

/-- Claim C9, witness: with an empty netrc the run aborts with the
configuration error even though a processable page is registered. -/
theorem startup_missing_credential_witness :
    runProgram [] [pageA] =
      Except.error "must have periscope_drift_page authentication in ~/.netrc" ∧
    ∀ outs : List Outcome, runProgram [] [pageA] ≠ Except.ok outs :=
  startup_missing_credential [] [pageA] (by intro en hen; simp at hen)

end WG
